import Mathlib

/-
Verification of the LEARNIT learning-management backend's access-control and
sub-resource lifecycle logic.

The route handlers of `src/server/routes/notes.js`, the assignments router
(`src/unnamed/part_000`) and the courses router (second document of
`src/server/routes/settings.js`) are embedded as pure Lean functions.
Persistence is explicit: each operation receives the looked-up document (an
`Option`, `none` meaning the id resolves to no document) and returns either an
`ApiError` (HTTP status plus message, exactly as produced by the route) or the
response payload together with the new state of the parent document.  Mongo
ObjectId references are modelled as `Nat`; `.equals` / `toString()` comparison
of two references is `Nat` equality.  Roles are the literal strings the code
compares against.
-/

deriving instance DecidableEq for Except

namespace LearnIt

/-- An authenticated caller as provided by the identity middleware:
`req.user._id` and `req.user.role`. -/
structure Caller where
  id : Nat
  role : String
deriving DecidableEq, Repr

/-- A failed route response: HTTP status code plus the `message` field of the
JSON error envelope. -/
structure ApiError where
  status : Nat
  message : String
deriving DecidableEq, Repr

/-- `s.toLowerCase()` on ASCII strings. -/
def strLower (s : String) : String := String.mk (s.toList.map Char.toLower)

/-- Index of the last occurrence of a character in a character list. -/
def lastIdxOf (c : Char) : List Char → Option Nat
  | [] => none
  | x :: xs =>
    match lastIdxOf c xs with
    | some i => some (i + 1)
    | none => if x == c then some 0 else none

/-- Node's `path.extname` on a bare file name: the suffix from the last `.`
(inclusive), or `""` when there is no dot or the only dot leads the name. -/
def extname (s : String) : String :=
  match lastIdxOf '.' s.toList with
  | none => ""
  | some i => if i == 0 then "" else String.mk (s.toList.drop i)

/-- `pat.isPrefixOf hay` over character lists, written out. -/
def seqStartsWith : List Char → List Char → Bool
  | _, [] => true
  | [], _ :: _ => false
  | h :: t, p :: ps => h == p && seqStartsWith t ps

/-- Substring containment over character lists. -/
def seqHasSub : List Char → List Char → Bool
  | [], pat => pat.isEmpty
  | h :: t, pat => seqStartsWith (h :: t) pat || seqHasSub t pat

/-- Case-insensitive substring match: the semantics of the code's
`{ $regex: pat, $options: 'i' }` on plain (metacharacter-free) search text. -/
def containsCI (hay pat : String) : Bool :=
  seqHasSub (strLower hay).toList (strLower pat).toList

/-! ## Notes (`src/server/routes/notes.js`) -/

/-- One entry of a note's access list: `{user, accessType}`. -/
structure AccessEntry where
  user : Nat
  accessType : String
deriving DecidableEq, Repr

/-- One comment of a note's comment sequence (fields the routes touch). -/
structure NoteComment where
  cid : Nat
  user : Nat
  content : String
deriving DecidableEq, Repr

/-- A note document, with the fields the routes read or write. -/
structure Note where
  title : String
  content : String
  course : Option Nat
  author : Nat
  isPublic : Bool
  accessList : List AccessEntry
  tags : List String
  viewCount : Nat
  comments : List NoteComment
deriving DecidableEq, Repr

/-- `GET /:id` of the notes router: 404 when the id resolves to no note; 403
when the caller is not admin, the note is not public, the caller is in no
access-list entry, and the caller is not the author; otherwise the view counter
is incremented, the note is saved and returned. -/
def getNote (u : Caller) (note? : Option Note) : Except ApiError Note :=
  match note? with
  | none => Except.error ⟨404, "Note not found"⟩
  | some note =>
    if u.role != "admin" && !note.isPublic
        && !(note.accessList.any fun a => a.user == u.id)
        && !(note.author == u.id) then
      Except.error ⟨403, "Access denied"⟩
    else
      Except.ok { note with viewCount := note.viewCount + 1 }

/-- `POST /:id/comments`: same access check as `GET /:id`; on success the
comment is appended and the note saved.  Returns the updated note (the route
responds with the last element of its comment sequence). -/
def addComment (u : Caller) (note? : Option Note) (ncid : Nat) (content : String) :
    Except ApiError Note :=
  match note? with
  | none => Except.error ⟨404, "Note not found"⟩
  | some note =>
    if u.role != "admin" && !note.isPublic
        && !(note.accessList.any fun a => a.user == u.id)
        && !(note.author == u.id) then
      Except.error ⟨403, "Access denied"⟩
    else
      Except.ok { note with comments := note.comments ++ [⟨ncid, u.id, content⟩] }

/-- The `hasAccess` computation of `PUT /:id`: admin, else author, else — when
the access list is non-empty — some entry with the caller's reference and
access type `edit`. -/
def updateHasAccess (u : Caller) (note : Note) : Bool :=
  if u.role == "admin" then true
  else if note.author == u.id then true
  else if note.accessList.length > 0 then
    (note.accessList.find? fun a => a.user == u.id && a.accessType == "edit").isSome
  else false

/-- `PUT /:id` of the notes router: 404 when absent, 403 when `hasAccess` is
false (before any mutation), otherwise the document is replaced by the request
body and returned. -/
def updateNote (u : Caller) (note? : Option Note) (body : Note) : Except ApiError Note :=
  match note? with
  | none => Except.error ⟨404, "Note not found"⟩
  | some note =>
    if !updateHasAccess u note then Except.error ⟨403, "Access denied"⟩
    else Except.ok body

/-- The query parameters of `GET /` (notes list): `course`, `search`, `tags`. -/
structure NoteQueryParams where
  course : Option Nat
  search : Option String
  tags : Option (List String)
deriving DecidableEq, Repr

/-- The `$or` clause of the Mongo query built by `GET /`.  `query.$or` is a
single slot: assigning it a second time replaces the first assignment. -/
inductive OrClause where
  | noneC : OrClause
  | searchOr (s : String) : OrClause
  | accessOr (uid : Nat) : OrClause
deriving DecidableEq, Repr

/-- The Mongo filter document built by `GET /`. -/
structure NotesQuery where
  course : Option Nat
  tags : Option (List String)
  orClause : OrClause
deriving DecidableEq, Repr

/-- Query construction of `GET /`: course and tags filters, then `query.$or`
is set to the title/content search when `search` is supplied, and then
overwritten with the access-scope disjunction when the caller is not admin. -/
def buildNotesQuery (u : Caller) (qp : NoteQueryParams) : NotesQuery :=
  let orC := match qp.search with
    | some s => OrClause.searchOr s
    | none => OrClause.noneC
  let orC := if u.role != "admin" then OrClause.accessOr u.id else orC
  { course := qp.course, tags := qp.tags, orClause := orC }

/-- Evaluation of the built filter against one note document. -/
def noteMatches (q : NotesQuery) (n : Note) : Bool :=
  (match q.course with
   | some c => n.course == some c
   | none => true)
  && (match q.tags with
      | some ts => n.tags.any fun t => ts.contains t
      | none => true)
  && (match q.orClause with
      | OrClause.noneC => true
      | OrClause.searchOr s => containsCI n.title s || containsCI n.content s
      | OrClause.accessOr uid =>
        n.isPublic || (n.accessList.any fun a => a.user == uid) || n.author == uid)

/-- `GET /` of the notes router: `Note.find(query)` over the stored notes. -/
def listNotes (u : Caller) (qp : NoteQueryParams) (notes : List Note) : List Note :=
  notes.filter (noteMatches (buildNotesQuery u qp))

/-! ## Assignments (`src/unnamed/part_000`) -/

/-- One submission of an assignment's submission sequence. `fileUrl` and
`fileName` are `Option` because the route stores `req.body.url` there, which
may be absent for a `fileType == "any"` submission with no file. -/
structure Submission where
  sid : Nat
  student : Nat
  submittedAt : Nat
  fileUrl : Option String
  fileName : Option String
  fileType : String
  comments : String
  grade : Option Int
  feedback : Option String
deriving DecidableEq, Repr

/-- An assignment document, with the fields the routes read or write. -/
structure Assignment where
  title : String
  description : String
  fileType : String
  dueDate : Nat
  maxFileSize : Nat
  allowedExtensions : List String
  isActive : Bool
  createdBy : Nat
  submissions : List Submission
deriving DecidableEq, Repr

/-- The multer upload attached to a submit request: original client file name
and the generated stored file name. -/
structure UploadedFile where
  originalname : String
  filename : String
deriving DecidableEq, Repr

/-- The submit request payload: optional uploaded file, optional
`req.body.url`, optional `req.body.comments`. -/
structure SubmitReq where
  file : Option UploadedFile
  url : Option String
  comments : Option String
deriving DecidableEq, Repr

/-- The file-type validation block of `POST /:id/submit` (lines 171–185):
`none` when it falls through, `some e` when it returns early with error `e`. -/
def fileTypeCheck (a : Assignment) (req : SubmitReq) : Option ApiError :=
  if a.fileType != "any" && a.fileType != "url" then
    match req.file with
    | none => some ⟨400, "File is required for this assignment"⟩
    | some f =>
      if a.allowedExtensions.length > 0
          && !(a.allowedExtensions.contains (strLower (extname f.originalname))) then
        some ⟨400, "File type not allowed. Allowed types: "
                ++ String.intercalate ", " a.allowedExtensions⟩
      else none
  else none

/-- The submission object built on success (lines 192–199). `now` is the
current time, `nsid` the generated sub-document id. -/
def mkSubmission (u : Caller) (req : SubmitReq) (now nsid : Nat) : Submission :=
  { sid := nsid
    student := u.id
    submittedAt := now
    fileUrl := match req.file with
      | some f => some ("/uploads/assignments/" ++ f.filename)
      | none => req.url
    fileName := match req.file with
      | some f => some f.originalname
      | none => req.url
    fileType := match req.file with
      | some f => extname f.originalname
      | none => "url"
    comments := req.comments.getD ""
    grade := none
    feedback := none }

/-- `POST /:id/submit`: the admin bar comes first, before the assignment is
even looked up; then 404 on absence, 403 on inactive, 400 on duplicate, the
file-type block, the URL requirement, and finally the push-and-save. -/
def submitAssignment (u : Caller) (a? : Option Assignment) (req : SubmitReq)
    (now nsid : Nat) : Except ApiError (Submission × Assignment) :=
  if u.role == "admin" then
    Except.error ⟨403, "Admins cannot submit assignments"⟩
  else
    match a? with
    | none => Except.error ⟨404, "Assignment not found"⟩
    | some a =>
      if !a.isActive then Except.error ⟨403, "Assignment is not active"⟩
      else if (a.submissions.find? fun sub => sub.student == u.id).isSome then
        Except.error ⟨400, "You have already submitted this assignment"⟩
      else
        match fileTypeCheck a req with
        | some e => Except.error e
        | none =>
          if a.fileType == "url" && req.url.isNone then
            Except.error ⟨400, "URL is required for this assignment"⟩
          else
            Except.ok (mkSubmission u req now nsid,
              { a with submissions := a.submissions ++ [mkSubmission u req now nsid] })

/-- Modelled from the spec: the `adminAuth` middleware lives in
`src/server/middleware/auth`, which is not part of the provided sources; per
the spec, grading is "administrative authority only" and a non-administrative
caller "fails with Forbidden".  The middleware admits exactly the callers
whose role is `admin`. -/
def adminAuthAllows (u : Caller) : Bool := u.role == "admin"

/-- Modelled from the spec: the Forbidden failure the `adminAuth` middleware
produces for a non-administrative caller. -/
def adminAuthError : ApiError := ⟨403, "Access denied"⟩

/-- In-place grade/feedback mutation of `submissions.id(submissionId)`: the
first sub-document with the given id gets its `grade` and `feedback` fields
set; every other entry is untouched and order is preserved. -/
def setGradeAt (subs : List Submission) (gsid : Nat) (g : Option Int)
    (fb : Option String) : List Submission :=
  match subs with
  | [] => []
  | s :: rest =>
    if s.sid == gsid then { s with grade := g, feedback := fb } :: rest
    else s :: setGradeAt rest gsid g fb

/-- `PUT /:id/submissions/:submissionId/grade`: behind `adminAuth`; 404 when
the assignment is absent; 404 when no sub-document has the given id; otherwise
grade and feedback are set on the located submission and the assignment is
saved.  Returns the mutated submission and the new assignment state. -/
def gradeSubmission (u : Caller) (a? : Option Assignment) (gsid : Nat)
    (g : Option Int) (fb : Option String) : Except ApiError (Submission × Assignment) :=
  if !adminAuthAllows u then Except.error adminAuthError
  else
    match a? with
    | none => Except.error ⟨404, "Assignment not found"⟩
    | some a =>
      match a.submissions.find? fun s => s.sid == gsid with
      | none => Except.error ⟨404, "Submission not found"⟩
      | some s =>
        Except.ok ({ s with grade := g, feedback := fb },
          { a with submissions := setGradeAt a.submissions gsid g fb })

/-- Number of submissions of `a` whose student reference is `x`. -/
def countStudentSubs (a : Assignment) (x : Nat) : Nat :=
  (a.submissions.filter fun s => s.student == x).length

/-! ## Courses (second document of `src/server/routes/settings.js`) -/

/-- A course document, with the fields the enroll route reads or writes. -/
structure Course where
  title : String
  code : String
  instructor : Nat
  students : List Nat
  maxStudents : Nat
  isActive : Bool
deriving DecidableEq, Repr

/-- `POST /:id/enroll` of the courses router: 404 on absence, 400 when the
course is inactive, 400 when the caller is already on the roster, 400 when the
roster has reached capacity, otherwise the caller is appended and saved. -/
def enrollStudent (u : Caller) (c? : Option Course) : Except ApiError Course :=
  match c? with
  | none => Except.error ⟨404, "Course not found"⟩
  | some c =>
    if !c.isActive then Except.error ⟨400, "Course is not active"⟩
    else if c.students.contains u.id then
      Except.error ⟨400, "Already enrolled in this course"⟩
    else if c.students.length >= c.maxStudents then
      Except.error ⟨400, "Course is full"⟩
    else Except.ok { c with students := c.students ++ [u.id] }

/-! ## Spec-side predicates

These follow the specification's words, to be compared with the route code. -/

/-- The spec's `canRead(caller, resource)`: administrative authority, or
author, or public, or the caller's reference appears in the access list with
any access type. -/
def canReadSpec (u : Caller) (n : Note) : Bool :=
  u.role == "admin" || n.author == u.id || n.isPublic
    || (n.accessList.any fun a => a.user == u.id)

/-- The spec's `canWriteEdit(caller, resource)`: administrative authority, or
author, or an access-list entry with the caller's reference and access type
`edit`. -/
def canWriteEditSpec (u : Caller) (n : Note) : Bool :=
  u.role == "admin" || n.author == u.id
    || (n.accessList.any fun a => a.user == u.id && a.accessType == "edit")

/-- The claim's case-insensitive membership of an extension in the
allowed-extension set. -/
def ciMemberSpec (ext : String) (allowed : List String) : Bool :=
  allowed.any fun e => strLower e == strLower ext

/-- The claim's last-match lookup over an access list: the access type of the
last entry bearing the given user reference. -/
def lastMatchType (l : List AccessEntry) (uid : Nat) : Option String :=
  ((l.filter fun a => a.user == uid).getLast?).map fun a => a.accessType

/-! ## Concrete fixtures used by witnesses and counterexamples -/

def wStu : Caller := ⟨1, "student"⟩

def wAdmin : Caller := ⟨9, "admin"⟩

def wU2 : Caller := ⟨2, "student"⟩

def wPubNote : Note := ⟨"t", "c", none, 9, true, [], [], 0, []⟩

def wViewNote : Note := ⟨"n", "c", none, 4, false, [⟨2, "view"⟩], [], 0, []⟩

def wNoteDup : Note := ⟨"t", "c", none, 9, false, [⟨2, "edit"⟩, ⟨2, "view"⟩], [], 0, []⟩

def wBetaNote : Note := ⟨"Beta notes", "about beta", none, 9, true, [], [], 0, []⟩

def wPrivNote : Note := ⟨"Secret", "hidden", none, 9, false, [], [], 0, []⟩

def wAssign : Assignment := ⟨"HW1", "d", "file", 100, 10, [".pdf"], true, 9, []⟩

def wAssignUp : Assignment := ⟨"HW1", "d", "file", 100, 10, [".PDF"], true, 9, []⟩

def wAssignAny : Assignment := ⟨"HW2", "d", "any", 100, 10, [], true, 9, []⟩

def wReqPdf : SubmitReq := ⟨some ⟨"report.pdf", "file-1.pdf"⟩, none, none⟩

def wReqDocx : SubmitReq := ⟨some ⟨"essay.docx", "file-2.docx"⟩, none, none⟩

def wReqEmpty : SubmitReq := ⟨none, none, none⟩

def wA1 : Assignment := { wAssignAny with submissions := [mkSubmission wStu wReqEmpty 5 7] }

def wSub5 : Submission := ⟨5, 1, 0, some "/u/f", some "f.pdf", ".pdf", "", none, none⟩

def wSub6 : Submission := ⟨6, 2, 0, none, none, "url", "", none, none⟩

def wAssignGraded : Assignment := ⟨"HW", "d", "any", 100, 10, [], true, 9, [wSub5, wSub6]⟩

def wCourse : Course := ⟨"C", "C1", 9, [], 2, true⟩

/-! ## Helper lemmas -/

/-- The deny condition of `GET /:id` / `POST /:id/comments` is the negation of
the spec's `canRead`. -/
theorem denyRead_eq (u : Caller) (note : Note) :
    (u.role != "admin" && !note.isPublic
        && !(note.accessList.any fun a => a.user == u.id)
        && !(note.author == u.id))
      = !canReadSpec u note := by
  unfold canReadSpec
  cases h1 : (u.role == "admin") <;>
    cases h2 : note.isPublic <;>
      cases h3 : (note.accessList.any fun a => a.user == u.id) <;>
        cases h4 : (note.author == u.id) <;>
          simp [h1, h2, h3, h4, bne]

/-- `(l.find? p).isSome` and `l.any p` agree. -/
theorem find?_isSome_eq_any (p : α → Bool) (l : List α) :
    (l.find? p).isSome = l.any p := by
  induction l with
  | nil => rfl
  | cons a t ih =>
    simp only [List.find?, List.any]
    cases h : p a <;> simp [h, ih]

/-- The `hasAccess` computation of `PUT /:id` agrees with the spec's
`canWriteEdit`. -/
theorem updateHasAccess_eq (u : Caller) (note : Note) :
    updateHasAccess u note = canWriteEditSpec u note := by
  unfold updateHasAccess canWriteEditSpec
  cases h1 : (u.role == "admin") <;> cases h2 : (note.author == u.id) <;>
    simp [h1, h2]
  cases note.accessList with
  | nil => simp
  | cons a t => simp [find?_isSome_eq_any]

/-- Inversion of a successful submit: the caller was not admin, the assignment
was active, the caller had no prior submission, and the result is exactly the
constructed submission appended to the sequence. -/
theorem submit_ok_inv (u : Caller) (a : Assignment) (req : SubmitReq)
    (now nsid : Nat) (sub : Submission) (a' : Assignment)
    (h : submitAssignment u (some a) req now nsid = Except.ok (sub, a')) :
    (u.role == "admin") = false
    ∧ a.isActive = true
    ∧ (a.submissions.find? fun sb => sb.student == u.id) = none
    ∧ sub = mkSubmission u req now nsid
    ∧ a' = { a with submissions := a.submissions ++ [mkSubmission u req now nsid] } := by
  simp only [submitAssignment] at h
  split at h
  · cases h
  · rename_i hadm
    split at h
    · cases h
    · rename_i hact
      split at h
      · cases h
      · rename_i hdup
        split at h
        · cases h
        · split at h
          · cases h
          · simp only [Except.ok.injEq, Prod.mk.injEq] at h
            obtain ⟨hsub, ha'⟩ := h
            refine ⟨?_, ?_, ?_, hsub.symm, ha'.symm⟩
            · cases hb : (u.role == "admin")
              · rfl
              · exact absurd hb hadm
            · cases hb : a.isActive
              · exfalso; apply hact; rw [hb]; rfl
              · rfl
            · exact Option.not_isSome_iff_eq_none.mp hdup

/-- `setGradeAt` never changes the length of the submission sequence. -/
theorem setGradeAt_length (subs : List Submission) (gsid : Nat) (g : Option Int)
    (fb : Option String) : (setGradeAt subs gsid g fb).length = subs.length := by
  induction subs with
  | nil => rfl
  | cons x rest ih =>
    simp only [setGradeAt]
    split <;> simp [ih]

/-- `setGradeAt` leaves every sub-document with a different id untouched, at
its original position. -/
theorem setGradeAt_get?_ne (subs : List Submission) (gsid : Nat) (g : Option Int)
    (fb : Option String) (j : Nat) (t : Submission)
    (hj : subs.get? j = some t) (hne : (t.sid == gsid) = false) :
    (setGradeAt subs gsid g fb).get? j = some t := by
  induction subs generalizing j with
  | nil => cases j <;> simp at hj
  | cons x rest ih =>
    cases j with
    | zero =>
      simp only [List.get?] at hj
      injection hj with hx
      subst hx
      simp [setGradeAt, hne]
    | succ n =>
      simp only [List.get?] at hj
      simp only [setGradeAt]
      split
      · simpa using hj
      · simpa using ih n hj

/-- A successful `GET /:id` yields the note with its view counter incremented
by one. -/
theorem getNote_ok_viewCount (u : Caller) (note n' : Note)
    (h : getNote u (some note) = Except.ok n') :
    n'.viewCount = note.viewCount + 1 := by
  simp only [getNote] at h
  split at h
  · cases h
  · cases h
    rfl

/-! ## Claims -/

/-- C2: the single-note read succeeds, returning the note with its view
counter bumped, exactly when the caller is admin, or the author, or the note
is public, or the caller appears in the access list with any access type
(`canReadSpec`); otherwise it fails with 403 "Access denied".  Posting a
comment on the note is gated by exactly the same predicate. -/
theorem read_and_comment_gated_by_canRead (u : Caller) (note : Note)
    (ncid : Nat) (content : String) :
    getNote u (some note)
        = (if canReadSpec u note then
            Except.ok { note with viewCount := note.viewCount + 1 }
          else Except.error ⟨403, "Access denied"⟩)
    ∧ addComment u (some note) ncid content
        = (if canReadSpec u note then
            Except.ok { note with comments := note.comments ++ [⟨ncid, u.id, content⟩] }
          else Except.error ⟨403, "Access denied"⟩) := by
  constructor <;>
    · simp only [getNote, addComment, denyRead_eq]
      cases h : canReadSpec u note <;> simp [h]

/-- C3: reading a note is not idempotent — each successful read increments the
view counter by exactly one, so two successive successful reads of the same
note increase it by exactly two over the baseline. -/
theorem note_read_increments_view_count (u : Caller) (note n1 n2 : Note)
    (h1 : getNote u (some note) = Except.ok n1)
    (h2 : getNote u (some n1) = Except.ok n2) :
    n1.viewCount = note.viewCount + 1 ∧ n2.viewCount = note.viewCount + 2 := by
  have e1 := getNote_ok_viewCount u note n1 h1
  have e2 := getNote_ok_viewCount u n1 n2 h2
  omega

theorem note_read_increments_view_count_witness :
    ({ wPubNote with viewCount := 1 } : Note).viewCount = wPubNote.viewCount + 1
    ∧ ({ wPubNote with viewCount := 2 } : Note).viewCount = wPubNote.viewCount + 2 :=
  note_read_increments_view_count wStu wPubNote
    { wPubNote with viewCount := 1 } { wPubNote with viewCount := 2 } rfl rfl

/-- C6: the full note update succeeds exactly when the caller is admin, or the
author, or holds an access-list entry with access type `edit`
(`canWriteEditSpec`); otherwise it fails with 403 before any mutation.  In
particular a caller whose only relation to the note is a `view` access-list
entry is denied. -/
theorem update_note_requires_edit_access (u : Caller) (note body : Note)
    (u' : Caller) (note' body' : Note)
    (hadm : (u'.role == "admin") = false)
    (hauth : (note'.author == u'.id) = false)
    (hedit : (note'.accessList.any fun a => a.user == u'.id && a.accessType == "edit")
        = false) :
    updateNote u (some note) body
        = (if canWriteEditSpec u note then Except.ok body
          else Except.error ⟨403, "Access denied"⟩)
    ∧ updateNote u' (some note') body' = Except.error ⟨403, "Access denied"⟩ := by
  constructor
  · simp only [updateNote, updateHasAccess_eq]
    cases h : canWriteEditSpec u note <;> simp [h]
  · have hw : canWriteEditSpec u' note' = false := by
      simp [canWriteEditSpec, hadm, hauth, hedit]
    simp [updateNote, updateHasAccess_eq, hw]

theorem update_note_requires_edit_access_witness :
    (updateNote wAdmin (some wViewNote) wPubNote
        = (if canWriteEditSpec wAdmin wViewNote then Except.ok wPubNote
          else Except.error ⟨403, "Access denied"⟩))
    ∧ updateNote wU2 (some wViewNote) wPubNote = Except.error ⟨403, "Access denied"⟩ :=
  update_note_requires_edit_access wAdmin wViewNote wPubNote wU2 wViewNote wPubNote
    rfl rfl rfl

/-- C10: an administrative caller's submit fails with 403 "Admins cannot
submit assignments" for every assignment id — including ids that resolve to no
assignment at all — because the admin bar is evaluated before the lookup; an
admin therefore never receives 404 from submit and no admin submit mutates any
assignment. -/
theorem admin_submit_always_forbidden (u : Caller) (a? : Option Assignment)
    (req : SubmitReq) (now nsid : Nat) (h : u.role = "admin") :
    submitAssignment u a? req now nsid
      = Except.error ⟨403, "Admins cannot submit assignments"⟩ := by
  simp [submitAssignment, h]

theorem admin_submit_always_forbidden_witness :
    submitAssignment wAdmin none wReqEmpty 0 0
      = Except.error ⟨403, "Admins cannot submit assignments"⟩ :=
  admin_submit_always_forbidden wAdmin none wReqEmpty 0 0 rfl

/-- C7 (code bug): for a non-administrative caller the route overwrites the
`$or` built from the `search` parameter with the access-scope `$or`, so the
free-text filter is silently dropped.  Concretely: caller 1 (role `student`)
lists with `search = "alpha"` over a store holding a public note matching
neither title nor content, plus an inaccessible private note; the public note
is returned anyway (only the access scope was applied), while the same query
as admin correctly returns nothing. -/
theorem list_notes_search_dropped_for_nonadmin :
    containsCI wBetaNote.title "alpha" = false
    ∧ containsCI wBetaNote.content "alpha" = false
    ∧ (wStu.role == "admin") = false
    ∧ listNotes wStu ⟨none, some "alpha", none⟩ [wBetaNote, wPrivNote] = [wBetaNote]
    ∧ listNotes wAdmin ⟨none, some "alpha", none⟩ [wBetaNote, wPrivNote] = [] := by
  decide

/-- C8 (counterexample): on the note with access list
`[{user 2, edit}, {user 2, view}]`, the last entry bearing user 2's reference
has access type `view`, yet user 2's update goes through — the governing
access type is not the last matching entry's, refuting last-match lookup
semantics. -/
theorem access_lookup_not_last_match :
    lastMatchType wNoteDup.accessList 2 = some "view"
    ∧ (wU2.role == "admin") = false
    ∧ (wNoteDup.author == wU2.id) = false
    ∧ updateNote wU2 (some wNoteDup) wPubNote = Except.ok wPubNote :=
  ⟨rfl, rfl, rfl, rfl⟩

/-- C8 (amended): duplicate access-list entries are tolerated, and lookup is
existential rather than last-match — update is granted exactly when some entry
bearing the caller's reference has access type `edit` (or the caller is admin
or author), and read is granted exactly when some entry bearing the caller's
reference exists (or admin/author/public), regardless of entry order. -/
theorem access_lookup_existential (u : Caller) (note body : Note) :
    updateNote u (some note) body
        = (if u.role == "admin" || note.author == u.id
              || (note.accessList.any fun a => a.user == u.id && a.accessType == "edit")
          then Except.ok body else Except.error ⟨403, "Access denied"⟩)
    ∧ getNote u (some note)
        = (if u.role == "admin" || note.author == u.id || note.isPublic
              || (note.accessList.any fun a => a.user == u.id)
          then Except.ok { note with viewCount := note.viewCount + 1 }
          else Except.error ⟨403, "Access denied"⟩) := by
  constructor
  · simp only [updateNote, updateHasAccess_eq, canWriteEditSpec]
    cases h : (u.role == "admin" || note.author == u.id
        || (note.accessList.any fun a => a.user == u.id && a.accessType == "edit")) <;>
      simp [h]
  · simp only [getNote, denyRead_eq, canReadSpec]
    cases h : (u.role == "admin" || note.author == u.id || note.isPublic
        || (note.accessList.any fun a => a.user == u.id)) <;>
      simp [h]

/-- C9: enrollment succeeds only on an active course whose roster does not
already hold the caller and is strictly below capacity; the success appends
exactly the caller; re-enrolling immediately fails with the 400
"Already enrolled" validation error (leaving the roster as it was, since
failures return no new state); and the new roster is still within capacity, so
rosters reachable through enroll never exceed capacity. -/
theorem enroll_capacity_invariant (u : Caller) (c c' : Course)
    (h : enrollStudent u (some c) = Except.ok c') :
    c.isActive = true
    ∧ c.students.contains u.id = false
    ∧ c.students.length < c.maxStudents
    ∧ c' = { c with students := c.students ++ [u.id] }
    ∧ enrollStudent u (some c') = Except.error ⟨400, "Already enrolled in this course"⟩
    ∧ c'.students.length ≤ c'.maxStudents := by
  simp only [enrollStudent] at h
  split at h
  · cases h
  · split at h
    · cases h
    · split at h
      · cases h
      · rename_i hact hdup hcap
        cases h
        have hact' : c.isActive = true := by
          cases hb : c.isActive
          · rw [hb] at hact; simp at hact
          · rfl
        have hdup' : c.students.contains u.id = false := by
          cases hb : c.students.contains u.id
          · rfl
          · rw [hb] at hdup; simp at hdup
        have hcap' : c.students.length < c.maxStudents := by omega
        refine ⟨hact', hdup', hcap', rfl, ?_, ?_⟩
        · simp only [enrollStudent, hact']
          have : (c.students ++ [u.id]).contains u.id = true := by
            simp [List.contains_eq_any_beq]
          simp [this]
        · simp
          omega

theorem enroll_capacity_invariant_witness :
    wCourse.isActive = true
    ∧ wCourse.students.contains wStu.id = false
    ∧ wCourse.students.length < wCourse.maxStudents
    ∧ ({ wCourse with students := [1] } : Course)
        = { wCourse with students := wCourse.students ++ [wStu.id] }
    ∧ enrollStudent wStu (some { wCourse with students := [1] })
        = Except.error ⟨400, "Already enrolled in this course"⟩
    ∧ ({ wCourse with students := [1] } : Course).students.length
        ≤ ({ wCourse with students := [1] } : Course).maxStudents :=
  enroll_capacity_invariant wStu wCourse { wCourse with students := [1] } rfl

/-- C1: after a successful submit by caller `u`, exactly one submission with
student reference `u.id` is in the assignment's sequence; any later submit by
`u` to the resulting assignment fails with the 400 duplicate-submission error
(returning no new state, so the sequence is unchanged); and the at-most-one-
submission-per-student invariant is preserved by submit, so it holds of every
assignment reachable through the submit operation. -/
theorem submit_unique_per_student
    (u : Caller) (a : Assignment) (req req2 : SubmitReq)
    (now nsid now2 nsid2 s : Nat) (sub : Submission) (a' : Assignment)
    (h : submitAssignment u (some a) req now nsid = Except.ok (sub, a'))
    (hs : countStudentSubs a s ≤ 1) :
    countStudentSubs a' u.id = 1
    ∧ submitAssignment u (some a') req2 now2 nsid2
        = Except.error ⟨400, "You have already submitted this assignment"⟩
    ∧ countStudentSubs a' s ≤ 1 := by
  obtain ⟨hadm, hact, hdup, hsub, ha'⟩ := submit_ok_inv u a req now nsid sub a' h
  subst ha'
  have hnone := List.find?_eq_none.mp hdup
  have hfilter : (a.submissions.filter fun sb => sb.student == u.id) = [] :=
    List.filter_eq_nil_iff.mpr hnone
  refine ⟨?_, ?_, ?_⟩
  · simp only [countStudentSubs, List.filter_append, hfilter]
    simp [mkSubmission]
  · simp only [submitAssignment, hadm, hact]
    simp [find?_isSome_eq_any, List.any_append, mkSubmission]
  · by_cases hus : u.id = s
    · subst hus
      simp only [countStudentSubs, List.filter_append, hfilter]
      simp [mkSubmission]
    · have hone : (List.filter (fun sb => sb.student == s)
          [mkSubmission u req now nsid]) = [] := by
        simp [mkSubmission, hus]
      simp only [countStudentSubs, List.filter_append, hone, List.append_nil]
      simpa [countStudentSubs] using hs

theorem submit_unique_per_student_witness :
    countStudentSubs wA1 wStu.id = 1
    ∧ submitAssignment wStu (some wA1) wReqPdf 6 8
        = Except.error ⟨400, "You have already submitted this assignment"⟩
    ∧ countStudentSubs wA1 1 ≤ 1 :=
  submit_unique_per_student wStu wAssignAny wReqEmpty wReqPdf 5 7 6 8 1
    (mkSubmission wStu wReqEmpty 5 7) wA1 (by decide) (by decide)

/-- C4 (counterexample): the assignment allows `[".PDF"]`; a caller submits
`report.pdf`, whose extension is a case-insensitive member of the allowed set,
so per the claim no extension validation error may occur — yet the code, which
lowercases only the artifact's extension and tests literal membership, rejects
the submit with the extension validation error. -/
theorem submit_ext_check_not_case_insensitive :
    ciMemberSpec (extname "report.pdf") [".PDF"] = true
    ∧ (wStu.role == "admin") = false
    ∧ wAssignUp.isActive = true
    ∧ (wAssignUp.submissions.find? fun sb => sb.student == wStu.id) = none
    ∧ submitAssignment wStu (some wAssignUp) wReqPdf 0 0
        = Except.error ⟨400, "File type not allowed. Allowed types: .PDF"⟩ := by
  decide

/-- C4 (amended): for a non-admin submit to an existing active assignment with
no prior submission by the caller and submission mode neither `any` nor `url`:
a missing artifact fails with the 400 file-required error; a supplied artifact
with a non-empty allowed-extension set fails with the 400 error listing the
allowed set unless the artifact's extension, lowercased, is literally a member
of that set (the allowed entries themselves are not case-normalized); and a
lowercased-member extension lets the submit succeed. -/
theorem submit_artifact_validation
    (u : Caller) (a : Assignment) (req : SubmitReq) (f : UploadedFile) (now nsid : Nat)
    (hadm : (u.role == "admin") = false)
    (hact : a.isActive = true)
    (hdup : (a.submissions.find? fun sb => sb.student == u.id) = none)
    (hmode1 : (a.fileType == "any") = false)
    (hmode2 : (a.fileType == "url") = false) :
    (req.file = none →
      submitAssignment u (some a) req now nsid
        = Except.error ⟨400, "File is required for this assignment"⟩)
    ∧ (req.file = some f → a.allowedExtensions ≠ [] →
        (a.allowedExtensions.contains (strLower (extname f.originalname))) = false →
        submitAssignment u (some a) req now nsid
          = Except.error ⟨400, "File type not allowed. Allowed types: "
              ++ String.intercalate ", " a.allowedExtensions⟩)
    ∧ (req.file = some f →
        (a.allowedExtensions.contains (strLower (extname f.originalname))) = true →
        submitAssignment u (some a) req now nsid
          = Except.ok (mkSubmission u req now nsid,
              { a with submissions := a.submissions ++ [mkSubmission u req now nsid] })) := by
  refine ⟨?_, ?_, ?_⟩
  · intro hf
    simp [submitAssignment, fileTypeCheck, hadm, hact, hdup, hmode1, hmode2, hf, bne]
  · intro hf hne hcon
    have hlen : (decide (a.allowedExtensions.length > 0)) = true :=
      decide_eq_true (List.length_pos.mpr hne)
    have hmem : strLower (extname f.originalname) ∉ a.allowedExtensions := by
      simpa using hcon
    simp [submitAssignment, fileTypeCheck, hadm, hact, hdup, hmode1, hmode2, hf,
      hlen, hmem, bne]
  · intro hf hcon
    have hmem : strLower (extname f.originalname) ∈ a.allowedExtensions := by
      simpa using hcon
    simp [submitAssignment, fileTypeCheck, hadm, hact, hdup, hmode1, hmode2, hf,
      hmem, bne]

theorem submit_artifact_validation_witness :
    (wReqDocx.file = none →
      submitAssignment wStu (some wAssign) wReqDocx 0 0
        = Except.error ⟨400, "File is required for this assignment"⟩)
    ∧ (wReqDocx.file = some ⟨"essay.docx", "file-2.docx"⟩ → wAssign.allowedExtensions ≠ [] →
        (wAssign.allowedExtensions.contains (strLower (extname "essay.docx"))) = false →
        submitAssignment wStu (some wAssign) wReqDocx 0 0
          = Except.error ⟨400, "File type not allowed. Allowed types: "
              ++ String.intercalate ", " wAssign.allowedExtensions⟩)
    ∧ (wReqDocx.file = some ⟨"essay.docx", "file-2.docx"⟩ →
        (wAssign.allowedExtensions.contains (strLower (extname "essay.docx"))) = true →
        submitAssignment wStu (some wAssign) wReqDocx 0 0
          = Except.ok (mkSubmission wStu wReqDocx 0 0,
              { wAssign with
                  submissions := wAssign.submissions ++ [mkSubmission wStu wReqDocx 0 0] })) :=
  submit_artifact_validation wStu wAssign wReqDocx ⟨"essay.docx", "file-2.docx"⟩ 0 0
    (by decide) (by decide) (by decide) (by decide) (by decide)

/-- C5: a non-administrative caller's grade request fails with the Forbidden
(403) rejection of the admin gate, whatever the assignment; an administrative
caller grading on an absent assignment, or a submission id absent from the
assignment's sequence, fails with the respective 404; on success only the
grade and feedback fields of the located submission are set — the result is
the located submission with exactly those two fields replaced, the sequence
keeps its length, and every sub-document with a different id stays untouched
at its original position — and the parent assignment is persisted with that
sequence. -/
theorem grade_authority_and_in_place
    (u u2 : Caller) (a0? : Option Assignment) (a b : Assignment)
    (gsid gsid2 : Nat) (g : Option Int) (fb : Option String)
    (s t : Submission) (j : Nat)
    (hu : (u.role == "admin") = false)
    (hu2 : (u2.role == "admin") = true)
    (hnone : (a.submissions.find? fun x => x.sid == gsid) = none)
    (hsome : (b.submissions.find? fun x => x.sid == gsid2) = some s)
    (hj : b.submissions.get? j = some t)
    (hjne : (t.sid == gsid2) = false) :
    gradeSubmission u a0? gsid g fb = Except.error adminAuthError
    ∧ adminAuthError.status = 403
    ∧ gradeSubmission u2 none gsid g fb = Except.error ⟨404, "Assignment not found"⟩
    ∧ gradeSubmission u2 (some a) gsid g fb = Except.error ⟨404, "Submission not found"⟩
    ∧ gradeSubmission u2 (some b) gsid2 g fb
        = Except.ok ({ s with grade := g, feedback := fb },
            { b with submissions := setGradeAt b.submissions gsid2 g fb })
    ∧ (setGradeAt b.submissions gsid2 g fb).length = b.submissions.length
    ∧ (setGradeAt b.submissions gsid2 g fb).get? j = some t := by
  refine ⟨?_, rfl, ?_, ?_, ?_, setGradeAt_length _ _ _ _,
    setGradeAt_get?_ne _ _ _ _ _ _ hj hjne⟩
  · simp [gradeSubmission, adminAuthAllows, hu]
  · simp [gradeSubmission, adminAuthAllows, hu2]
  · simp [gradeSubmission, adminAuthAllows, hu2, hnone]
  · simp [gradeSubmission, adminAuthAllows, hu2, hsome]

theorem grade_authority_and_in_place_witness :
    gradeSubmission wStu (some wAssignGraded) 5 (some 90) (some "good")
        = Except.error adminAuthError
    ∧ adminAuthError.status = 403
    ∧ gradeSubmission wAdmin none 5 (some 90) (some "good")
        = Except.error ⟨404, "Assignment not found"⟩
    ∧ gradeSubmission wAdmin (some wAssignAny) 5 (some 90) (some "good")
        = Except.error ⟨404, "Submission not found"⟩
    ∧ gradeSubmission wAdmin (some wAssignGraded) 5 (some 90) (some "good")
        = Except.ok ({ wSub5 with grade := some 90, feedback := some "good" },
            { wAssignGraded with
                submissions := setGradeAt wAssignGraded.submissions 5 (some 90) (some "good") })
    ∧ (setGradeAt wAssignGraded.submissions 5 (some 90) (some "good")).length
        = wAssignGraded.submissions.length
    ∧ (setGradeAt wAssignGraded.submissions 5 (some 90) (some "good")).get? 1 = some wSub6 :=
  grade_authority_and_in_place wStu wAdmin (some wAssignGraded) wAssignAny wAssignGraded
    5 5 (some 90) (some "good") wSub5 wSub6 1
    (by decide) (by decide) (by decide) (by decide) (by decide) (by decide)

end LearnIt
